import Mathlib

set_option maxRecDepth 100000

/-
Shallow embedding of the dakv/cuckoo cuckoo filter.

Source files embedded:
  src/src/bucket.rs        (Bucket, BUCKET_SIZE)
  src/src/cuckoo_filter.rs (CuckooFilter, gen_size, trailing_zeros, add,
                            insert, reinsert, contains, delete, remove)

The repository's `src/util.rs` (get_indices_and_fingerprint, get_alt_index,
upper_power2) is not present under src/; those functions are modelled from the
specification, as flagged in their doc comments.

Conventions:
  - Machine integers (u8, u64, usize) are Nat, with explicit bounds or
    `% 2 ^ 64` where wrap-around matters.
  - Byte-slice keys are `List Nat`.
  - Rust panics (out-of-range indexing, `%` by a zero bucket-array length)
    are modelled by `Option`: `none` is a panic.
  - The process-wide random source is threaded explicitly: `coin` for the
    i1/i2 tie-break in `add`, and a stream `js : Nat → Fin BUCKET_SIZE` of
    slot choices for the eviction loop (the source's `rng.gen_range(0, 4)`
    always yields a value < 4, which `Fin BUCKET_SIZE` captures).
-/

namespace Cuckoo

/-- BUCKET_SIZE from src/src/bucket.rs: every bucket has exactly 4 slots. -/
def BUCKET_SIZE : Nat := 4

/-- MAX_CUCKOO_COUNT from src/src/cuckoo_filter.rs: maximum number of cuckoo
kicks before claiming failure. -/
def MAX_CUCKOO_COUNT : Nat := 500

/-- Bucket from src/src/bucket.rs: `data: [u8; BUCKET_SIZE]`, a fixed array of
fingerprint slots where the byte 0 denotes an empty slot. Modelled as a list
of naturals; well-formed states have length `BUCKET_SIZE`. -/
abbrev Bucket := List Nat

/-- Bucket::insert from src/src/bucket.rs: scan the slots in storage order and
store `finger` in the first empty (0) slot; `none` if all slots are occupied
(the source returns `false` and leaves the bucket unchanged). -/
def Bucket.insert : Bucket → Nat → Option Bucket
  | [], _ => none
  | fp :: rest, finger =>
    if fp = 0 then some (finger :: rest)
    else Option.map (fun r => fp :: r) (Bucket.insert rest finger)

/-- Bucket::delete from src/src/bucket.rs: scan the slots for an exact match
with `finger` and clear the first match to 0; `none` if no slot matches (the
source returns `false` and leaves the bucket unchanged). -/
def Bucket.delete : Bucket → Nat → Option Bucket
  | [], _ => none
  | fp :: rest, finger =>
    if fp = finger then some (0 :: rest)
    else Option.map (fun r => fp :: r) (Bucket.delete rest finger)

/-- Bucket::get_fingerprint_index from src/src/bucket.rs: position of the
first slot equal to `finger`, if any. -/
def Bucket.get_fingerprint_index : Bucket → Nat → Option Nat
  | [], _ => none
  | fp :: rest, finger =>
    if fp = finger then some 0
    else Option.map (fun i => i + 1) (Bucket.get_fingerprint_index rest finger)

/-- FingerprintRecord: the transient triple computed per operation by
`get_indices_and_fingerprint` (fingerprint byte, primary index, alternate
index). -/
structure FingerRecord where
  fp : Nat
  i1 : Nat
  i2 : Nat
deriving DecidableEq

/-- Modelled from the spec: `get_alt_index` from the repository's
`src/util.rs`, which is not present under src/. Spec §4.1: the alternate
index is `(i XOR hash(fp)) & (N - 1)` with `N = 2 ^ pow`; masking with
`N - 1` is `% 2 ^ pow`. The (unspecified) fingerprint hash is the
parameter `hashFp`. -/
def get_alt_index (hashFp : Nat → Nat) (fp i : Nat) (pow : Nat) : Nat :=
  (i ^^^ hashFp fp) % 2 ^ pow

/-- Modelled from the spec: the fingerprint byte computed by
`get_indices_and_fingerprint` in the missing `src/util.rs`. Spec §4.1: a
single byte derived from a hash of the key, non-zero; "if the natural hash
byte is 0, substitute a fixed non-zero replacement value" (the spec does not
pin the constant; 1 is used here). The (unspecified) key hash is the
parameter `hashKey`. -/
def fingerprint_byte (hashKey : List Nat → Nat) (key : List Nat) : Nat :=
  if hashKey key % 256 = 0 then 1 else hashKey key % 256

/-- Modelled from the spec: `get_indices_and_fingerprint` from the missing
`src/util.rs`. Spec §4.1: `fp` is the non-zero fingerprint byte,
`i1 = hash(key) & (N - 1)`, `i2 = (i1 XOR hash(fp)) & (N - 1)` with
`N = 2 ^ pow`. -/
def get_indices_and_fingerprint (hashKey : List Nat → Nat) (hashFp : Nat → Nat)
    (key : List Nat) (pow : Nat) : FingerRecord :=
  let fp := fingerprint_byte hashKey key
  let i1 := hashKey key % 2 ^ pow
  ⟨fp, i1, get_alt_index hashFp fp i1 pow⟩

/-- Modelled from the spec: `upper_power2` from the missing `src/util.rs`.
Spec §4.3: the "next power of two ≥" its argument. Computed by repeated
doubling with structural fuel (`2 ^ n ≥ n`, so `n` doublings always
suffice), keeping the definition kernel-executable. -/
def upper_power2_go : Nat → Nat → Nat → Nat
  | 0, _, acc => acc
  | fuel + 1, n, acc => if n ≤ acc then acc else upper_power2_go fuel n (acc * 2)

/-- Modelled from the spec: `upper_power2 n` is the smallest power of two
that is ≥ `n` (and 1 for `n = 0`). -/
def upper_power2 (n : Nat) : Nat :=
  upper_power2_go n n 1

/-- CuckooFilter from src/src/cuckoo_filter.rs: a boxed slice of buckets, the
live-item counter `size`, and the cached index width `pow`. -/
structure CuckooFilter where
  buckets : List Bucket
  size : Nat
  pow : Nat
deriving DecidableEq

/-- Result of `CuckooFilter::add` / `reinsert`: `Ok(())` or
`Err(CuckooError::NotEnoughSpace)`, in both cases together with the
(possibly mutated) filter state that the Rust code mutates in place. -/
inductive AddResult where
  | ok (cf : CuckooFilter)
  | notEnoughSpace (cf : CuckooFilter)
deriving DecidableEq

/-- CuckooFilter::insert (private) from src/src/cuckoo_filter.rs: reduce the
index modulo the bucket-array length and try a bucket insert; on success bump
`size`. The returned Bool is the source's return value. If the bucket array
is empty the source's `i as usize % self.buckets.len()` panics; here the
lookup yields `none` (Lean's `i % 0 = i` and `[][i]? = none`). -/
def CuckooFilter.insert (cf : CuckooFilter) (fp i : Nat) : Option (Bool × CuckooFilter) :=
  match cf.buckets[i % cf.buckets.length]? with
  | none => none
  | some b =>
    match Bucket.insert b fp with
    | some b2 => some (true, ⟨cf.buckets.set (i % cf.buckets.length) b2, cf.size + 1, cf.pow⟩)
    | none => some (false, cf)

/-- CuckooFilter::remove (private) from src/src/cuckoo_filter.rs: try a bucket
delete at index `i` (no modulo in the source) and decrement `size` on
success. The source's `self.size -= 1` is usize subtraction; under the size
invariant a successful delete clears a non-zero slot, so `size > 0` and Nat
truncated subtraction agrees. -/
def CuckooFilter.remove (cf : CuckooFilter) (fp i : Nat) : Option (Bool × CuckooFilter) :=
  match cf.buckets[i]? with
  | none => none
  | some b =>
    match Bucket.delete b fp with
    | some b2 => some (true, ⟨cf.buckets.set i b2, cf.size - 1, cf.pow⟩)
    | none => some (false, cf)

/-- Body of the `for` loop of CuckooFilter::reinsert from
src/src/cuckoo_filter.rs, with the remaining iteration count (`fuel`) and the
current position `k` in the random slot-choice stream made explicit. Each
iteration draws a slot `j`, swaps the in-hand fingerprint with
`buckets[i][j]` (`mem::swap`), recomputes the evicted fingerprint's alternate
index, and tries a plain insert there; when the fuel runs out the source
returns `Err(CuckooError::NotEnoughSpace)`. -/
def CuckooFilter.reinsertLoop (hashFp : Nat → Nat) (js : Nat → Fin BUCKET_SIZE) :
    Nat → Nat → CuckooFilter → Nat → Nat → Option AddResult
  | 0, _, cf, _, _ => some (.notEnoughSpace cf)
  | fuel + 1, k, cf, fp, i =>
    match cf.buckets[i]? with
    | none => none
    | some b =>
      match b[(js k).val]? with
      | none => none
      | some evicted =>
        match CuckooFilter.insert ⟨cf.buckets.set i (b.set (js k).val fp), cf.size, cf.pow⟩
            evicted (get_alt_index hashFp evicted i cf.pow) with
        | none => none
        | some (true, cf3) => some (.ok cf3)
        | some (false, cf3) =>
          CuckooFilter.reinsertLoop hashFp js fuel (k + 1) cf3 evicted
            (get_alt_index hashFp evicted i cf.pow)

/-- CuckooFilter::reinsert from src/src/cuckoo_filter.rs: run the eviction
loop for MAX_CUCKOO_COUNT iterations. -/
def CuckooFilter.reinsert (hashFp : Nat → Nat) (js : Nat → Fin BUCKET_SIZE)
    (cf : CuckooFilter) (fp i : Nat) : Option AddResult :=
  CuckooFilter.reinsertLoop hashFp js MAX_CUCKOO_COUNT 0 cf fp i

/-- rand_index from src/src/cuckoo_filter.rs: pick `i1` or `i2` by a coin
flip; the process-wide `random()` is the explicit argument `coin`. -/
def rand_index (coin : Bool) (i1 i2 : Nat) : Nat :=
  if coin then i1 else i2

/-- Body of CuckooFilter::add from src/src/cuckoo_filter.rs after the
fingerprint record `finger` has been computed (the source binds it once with
`let finger = ...`): try a direct insert into bucket `i1` then bucket `i2`
(the source's short-circuiting `||`), and otherwise enter the eviction loop
starting from a randomly chosen one of the two candidate buckets. -/
def CuckooFilter.addFinger (hashFp : Nat → Nat) (coin : Bool)
    (js : Nat → Fin BUCKET_SIZE) (cf : CuckooFilter) (finger : FingerRecord) : Option AddResult :=
  match cf.insert finger.fp finger.i1 with
  | none => none
  | some (true, cf2) => some (.ok cf2)
  | some (false, cf2) =>
    match cf2.insert finger.fp finger.i2 with
    | none => none
    | some (true, cf3) => some (.ok cf3)
    | some (false, cf3) =>
      cf3.reinsert hashFp js finger.fp (rand_index coin finger.i1 finger.i2)

/-- CuckooFilter::add from src/src/cuckoo_filter.rs: compute the fingerprint
record and run the insertion algorithm. -/
def CuckooFilter.add (hashKey : List Nat → Nat) (hashFp : Nat → Nat) (coin : Bool)
    (js : Nat → Fin BUCKET_SIZE) (cf : CuckooFilter) (item : List Nat) : Option AddResult :=
  cf.addFinger hashFp coin js (get_indices_and_fingerprint hashKey hashFp item cf.pow)

/-- Body of CuckooFilter::contains from src/src/cuckoo_filter.rs after the
fingerprint record has been computed. The source reads
`let b1 = self.buckets[finger.i1 as usize]` and then
`let b2 = self.buckets[finger.i1 as usize]` — the index `i1` twice — and
reports whether the fingerprint occurs in `b1` or `b2`. The double read of
`i1` is translated as written. -/
def CuckooFilter.containsFinger (cf : CuckooFilter) (finger : FingerRecord) : Option Bool :=
  match cf.buckets[finger.i1]? with
  | none => none
  | some b1 =>
    match cf.buckets[finger.i1]? with
    | none => none
    | some b2 =>
      some ((Bucket.get_fingerprint_index b1 finger.fp).isSome
        || (Bucket.get_fingerprint_index b2 finger.fp).isSome)

/-- CuckooFilter::contains from src/src/cuckoo_filter.rs. Takes `&self`: no
filter state is produced or mutated, which the result type reflects. -/
def CuckooFilter.contains (hashKey : List Nat → Nat) (hashFp : Nat → Nat)
    (cf : CuckooFilter) (data : List Nat) : Option Bool :=
  cf.containsFinger (get_indices_and_fingerprint hashKey hashFp data cf.pow)

/-- Body of CuckooFilter::delete from src/src/cuckoo_filter.rs after the
fingerprint record has been computed: remove the fingerprint from bucket
`i1`, else from bucket `i2` (short-circuiting `||`); the Bool is the
source's return value. -/
def CuckooFilter.deleteFinger (cf : CuckooFilter) (finger : FingerRecord) :
    Option (Bool × CuckooFilter) :=
  match cf.remove finger.fp finger.i1 with
  | none => none
  | some (true, cf2) => some (true, cf2)
  | some (false, cf2) => cf2.remove finger.fp finger.i2

/-- CuckooFilter::delete from src/src/cuckoo_filter.rs. -/
def CuckooFilter.delete (hashKey : List Nat → Nat) (hashFp : Nat → Nat)
    (cf : CuckooFilter) (data : List Nat) : Option (Bool × CuckooFilter) :=
  cf.deleteFinger (get_indices_and_fingerprint hashKey hashFp data cf.pow)

/-- DE_BRUIJN64_TAB from src/src/cuckoo_filter.rs. -/
def DE_BRUIJN64_TAB : List Nat :=
  [0, 1, 56, 2, 57, 49, 28, 3, 61, 58, 42, 50, 38, 29, 17, 4, 62, 47, 59, 36,
   45, 43, 51, 22, 53, 39, 33, 30, 24, 18, 12, 5, 63, 55, 48, 27, 60, 41, 37,
   16, 46, 35, 44, 21, 52, 32, 23, 11, 54, 26, 40, 15, 34, 20, 31, 10, 25, 14,
   19, 9, 13, 8, 7, 6]

/-- DE_BRUIJN64 from src/src/cuckoo_filter.rs. -/
def DE_BRUIJN64 : Nat := 0x03f79d71b4ca8b09

/-- trailing_zeros from src/src/cuckoo_filter.rs: De Bruijn trailing-zero
count of a usize. `(c as i64 * (-1)) as u64` is two's-complement negation,
i.e. `(2 ^ 64 - c) % 2 ^ 64`; `wrapping_mul` is `* ... % 2 ^ 64`;
`wrapping_shr(64 - 6)` is `/ 2 ^ 58`. The table index `cc >> 58` is < 64, so
the source's indexing cannot fail; `getD ... 0` is used here. The argument is
a usize, so callers are bounded by `c < 2 ^ 64`. -/
def trailing_zeros (c : Nat) : Nat :=
  if c = 0 then 64
  else
    let cc := (c &&& (2 ^ 64 - c) % 2 ^ 64) * DE_BRUIJN64 % 2 ^ 64
    DE_BRUIJN64_TAB.getD (cc / 2 ^ 58) 0

/-- CuckooFilter::with_capacity from src/src/cuckoo_filter.rs: `capacity`
zero-initialized buckets (`iter::repeat(Bucket::new()).take(capacity)` — no
rounding), `size = 0`, and `pow = trailing_zeros(capacity)`. -/
def CuckooFilter.with_capacity (capacity : Nat) : CuckooFilter :=
  ⟨List.replicate capacity (List.replicate BUCKET_SIZE 0), 0, trailing_zeros capacity⟩

/-- gen_size from src/src/cuckoo_filter.rs. The source computes
`frac = max_num_keys as f64 / num_buckets as f64 / BUCKET_SIZE as f64` and
doubles `num_buckets` when `frac > 0.96`, a binary64 floating-point
comparison; that comparison is abstracted here as the Boolean parameter
`frac_gt` (the value the source computes for it). -/
def gen_size_param (frac_gt : Bool) (max_num_keys : Nat) : Nat :=
  let num_buckets := upper_power2 (max 1 (max_num_keys / BUCKET_SIZE))
  if frac_gt then num_buckets * 2 else num_buckets

/-- CuckooFilter::new from src/src/cuckoo_filter.rs:
`with_capacity(gen_size(max_num_keys) as usize)`, with the floating-point
branch of `gen_size` abstracted as in `gen_size_param`. -/
def CuckooFilter.new (frac_gt : Bool) (max_num_keys : Nat) : CuckooFilter :=
  CuckooFilter.with_capacity (gen_size_param frac_gt max_num_keys)

/-- Well-formedness of a filter state: a non-empty bucket array, every bucket
of width BUCKET_SIZE, and the index range `2 ^ pow` within the array (all
indices the operations compute are `< 2 ^ pow`). States built by
`with_capacity n` for `0 < n < 2 ^ 64` satisfy it. -/
def CuckooFilter.WF (cf : CuckooFilter) : Prop :=
  0 < cf.buckets.length ∧ (∀ b ∈ cf.buckets, b.length = BUCKET_SIZE) ∧
    2 ^ cf.pow ≤ cf.buckets.length

instance (cf : CuckooFilter) : Decidable cf.WF := by
  unfold CuckooFilter.WF; infer_instance

/-- Multiset of the non-zero slots of a bucket array. -/
def storedList (l : List Bucket) : Multiset Nat :=
  (l.flatten.filter (fun x => x != 0) : List Nat)

/-- Multiset of stored (non-zero) fingerprint slots across all buckets, the
quantity the spec's data-model invariant compares `size` with. -/
def CuckooFilter.stored (cf : CuckooFilter) : Multiset Nat :=
  storedList cf.buckets

/-- Number of occupied (non-zero) slots across all buckets. -/
def CuckooFilter.occupied (cf : CuckooFilter) : Nat :=
  Multiset.card cf.stored

/-- Multiset of the non-zero slots of one bucket. -/
def bstored (b : Bucket) : Multiset Nat :=
  (b.filter (fun x => x != 0) : List Nat)

/- Bucket-level lemmas. -/

theorem bstored_cons_zero (rest : Bucket) : bstored (0 :: rest) = bstored rest := by
  simp [bstored]

theorem bstored_cons_ne (a : Nat) (rest : Bucket) (ha : a ≠ 0) :
    bstored (a :: rest) = a ::ₘ bstored rest := by
  simp [bstored, List.filter_cons, ha]

theorem Bucket.insert_cons_zero (rest : Bucket) (finger : Nat) :
    Bucket.insert (0 :: rest) finger = some (finger :: rest) := rfl

theorem Bucket.insert_cons_ne {a : Nat} (rest : Bucket) (finger : Nat) (ha : a ≠ 0) :
    Bucket.insert (a :: rest) finger
      = Option.map (fun r => a :: r) (Bucket.insert rest finger) := by
  simp [Bucket.insert, ha]

theorem Bucket.delete_cons_self (rest : Bucket) (finger : Nat) :
    Bucket.delete (finger :: rest) finger = some (0 :: rest) := by
  simp [Bucket.delete]

theorem Bucket.delete_cons_ne {a : Nat} (rest : Bucket) {finger : Nat} (ha : a ≠ finger) :
    Bucket.delete (a :: rest) finger
      = Option.map (fun r => a :: r) (Bucket.delete rest finger) := by
  simp [Bucket.delete, ha]

theorem Bucket.insert_eq_none {b : Bucket} {finger : Nat} :
    Bucket.insert b finger = none ↔ ∀ x ∈ b, x ≠ 0 := by
  induction b with
  | nil => simp [Bucket.insert]
  | cons a rest ih =>
    by_cases ha : a = 0
    · subst ha; simp [Bucket.insert_cons_zero]
    · simp [Bucket.insert_cons_ne rest finger ha, Option.map_eq_none', ih, ha]

theorem Bucket.insert_some {b b2 : Bucket} {finger : Nat}
    (h : Bucket.insert b finger = some b2) :
    b2.length = b.length ∧ finger ∈ b2 := by
  induction b generalizing b2 with
  | nil => simp [Bucket.insert] at h
  | cons a rest ih =>
    by_cases ha : a = 0
    · subst ha
      rw [Bucket.insert_cons_zero, Option.some.injEq] at h
      subst h; simp
    · rw [Bucket.insert_cons_ne rest finger ha, Option.map_eq_some'] at h
      obtain ⟨r, hr, rfl⟩ := h
      have := ih hr
      simp [this.1, this.2]

theorem Bucket.insert_bstored {b b2 : Bucket} {finger : Nat} (hf : finger ≠ 0)
    (h : Bucket.insert b finger = some b2) :
    bstored b2 = finger ::ₘ bstored b := by
  induction b generalizing b2 with
  | nil => simp [Bucket.insert] at h
  | cons a rest ih =>
    by_cases ha : a = 0
    · subst ha
      rw [Bucket.insert_cons_zero, Option.some.injEq] at h
      subst h
      rw [bstored_cons_ne finger rest hf, bstored_cons_zero]
    · rw [Bucket.insert_cons_ne rest finger ha, Option.map_eq_some'] at h
      obtain ⟨r, hr, rfl⟩ := h
      rw [bstored_cons_ne a r ha, bstored_cons_ne a rest ha, ih hr, Multiset.cons_swap]

theorem Bucket.delete_eq_none {b : Bucket} {finger : Nat} :
    Bucket.delete b finger = none ↔ finger ∉ b := by
  induction b with
  | nil => simp [Bucket.delete]
  | cons a rest ih =>
    by_cases ha : a = finger
    · subst ha; simp [Bucket.delete_cons_self]
    · simp [Bucket.delete_cons_ne rest ha, Option.map_eq_none', ih, Ne.symm ha]

theorem Bucket.delete_some {b b2 : Bucket} {finger : Nat}
    (h : Bucket.delete b finger = some b2) :
    ∃ j, b[j]? = some finger ∧ b2 = b.set j 0 := by
  induction b generalizing b2 with
  | nil => simp [Bucket.delete] at h
  | cons a rest ih =>
    by_cases ha : a = finger
    · subst ha
      rw [Bucket.delete_cons_self, Option.some.injEq] at h
      exact ⟨0, by simp, by simp [← h]⟩
    · rw [Bucket.delete_cons_ne rest ha, Option.map_eq_some'] at h
      obtain ⟨r, hr, rfl⟩ := h
      obtain ⟨j, hj, rfl⟩ := ih hr
      exact ⟨j + 1, by simpa using hj, by simp⟩

theorem Bucket.delete_bstored {b b2 : Bucket} {finger : Nat} (hf : finger ≠ 0)
    (h : Bucket.delete b finger = some b2) :
    bstored b = finger ::ₘ bstored b2 := by
  induction b generalizing b2 with
  | nil => simp [Bucket.delete] at h
  | cons a rest ih =>
    by_cases ha : a = finger
    · subst ha
      rw [Bucket.delete_cons_self, Option.some.injEq] at h
      subst h
      rw [bstored_cons_ne a rest hf, bstored_cons_zero]
    · rw [Bucket.delete_cons_ne rest ha, Option.map_eq_some'] at h
      obtain ⟨r, hr, rfl⟩ := h
      by_cases h0 : a = 0
      · subst h0
        rw [bstored_cons_zero, bstored_cons_zero, ih hr]
      · rw [bstored_cons_ne a rest h0, bstored_cons_ne a r h0, ih hr, Multiset.cons_swap]

theorem Bucket.gfi_isSome {b : Bucket} {finger : Nat} :
    (Bucket.get_fingerprint_index b finger).isSome = true ↔ finger ∈ b := by
  induction b with
  | nil => simp [Bucket.get_fingerprint_index]
  | cons a rest ih =>
    by_cases ha : a = finger
    · subst ha; simp [Bucket.get_fingerprint_index]
    · simp [Bucket.get_fingerprint_index, ha, ih, Ne.symm ha]

theorem Bucket.set_bstored {b : Bucket} {j e : Nat} (v : Nat)
    (hj : b[j]? = some e) (he : e ≠ 0) (hv : v ≠ 0) :
    e ::ₘ bstored (b.set j v) = v ::ₘ bstored b := by
  induction b generalizing j with
  | nil => simp at hj
  | cons a rest ih =>
    cases j with
    | zero =>
      rw [List.getElem?_cons_zero, Option.some.injEq] at hj
      subst hj
      rw [List.set_cons_zero, bstored_cons_ne v rest hv, bstored_cons_ne a rest he,
        Multiset.cons_swap]
    | succ j =>
      rw [List.getElem?_cons_succ] at hj
      rw [List.set_cons_succ]
      by_cases ha : a = 0
      · subst ha
        rw [bstored_cons_zero, bstored_cons_zero, ih hj]
      · rw [bstored_cons_ne a (rest.set j v) ha, bstored_cons_ne a rest ha,
          Multiset.cons_swap e a, Multiset.cons_swap v a, ih hj]

theorem Bucket.set_full {b : Bucket} {j : Nat} (v : Nat)
    (hfull : ∀ x ∈ b, x ≠ 0) (hv : v ≠ 0) : ∀ x ∈ b.set j v, x ≠ 0 := by
  intro x hx
  rcases List.mem_or_eq_of_mem_set hx with h | h
  · exact hfull x h
  · subst h; exact hv

/- Bucket-array lemmas. -/

theorem storedList_cons (a : Bucket) (rest : List Bucket) :
    storedList (a :: rest) = bstored a + storedList rest := by
  simp [storedList, bstored, List.flatten_cons, List.filter_append]

theorem storedList_set {l : List Bucket} {i : Nat} {b : Bucket} (b2 : Bucket)
    (hb : l[i]? = some b) :
    storedList (l.set i b2) + bstored b = storedList l + bstored b2 := by
  induction l generalizing i with
  | nil => simp at hb
  | cons a rest ih =>
    cases i with
    | zero =>
      rw [List.getElem?_cons_zero, Option.some.injEq] at hb
      subst hb
      rw [List.set_cons_zero, storedList_cons, storedList_cons]
      abel
    | succ i =>
      rw [List.getElem?_cons_succ] at hb
      rw [List.set_cons_succ, storedList_cons, storedList_cons, add_assoc, add_assoc, ih hb]

theorem storedList_set_insert {l : List Bucket} {i : Nat} {b b2 : Bucket} {fp : Nat}
    (hb : l[i]? = some b) (hins : Bucket.insert b fp = some b2) (hfp : fp ≠ 0) :
    storedList (l.set i b2) = fp ::ₘ storedList l := by
  have h1 := storedList_set b2 hb
  rw [Bucket.insert_bstored hfp hins, Multiset.add_cons, ← Multiset.cons_add] at h1
  exact add_right_cancel h1

theorem storedList_set_delete {l : List Bucket} {i : Nat} {b b2 : Bucket} {fp : Nat}
    (hb : l[i]? = some b) (hdel : Bucket.delete b fp = some b2) (hfp : fp ≠ 0) :
    storedList l = fp ::ₘ storedList (l.set i b2) := by
  have h1 := storedList_set b2 hb
  rw [Bucket.delete_bstored hfp hdel, Multiset.add_cons, ← Multiset.cons_add] at h1
  exact (add_right_cancel h1).symm

theorem storedList_set_swap {l : List Bucket} {i : Nat} {b : Bucket} {j e fp : Nat}
    (hb : l[i]? = some b) (hj : b[j]? = some e) (he : e ≠ 0) (hfp : fp ≠ 0) :
    e ::ₘ storedList (l.set i (b.set j fp)) = fp ::ₘ storedList l := by
  have h1 := storedList_set (b.set j fp) hb
  have h2 := Bucket.set_bstored fp hj he hfp
  have h3 : (e ::ₘ storedList (l.set i (b.set j fp))) + bstored b
      = (fp ::ₘ storedList l) + bstored b := by
    rw [Multiset.cons_add, h1, ← Multiset.add_cons, h2, Multiset.add_cons, ← Multiset.cons_add]
  exact add_right_cancel h3

/- Inversion lemmas for the private filter operations. -/

theorem CuckooFilter.insert_eq (cf : CuckooFilter) (fp i : Nat) {b : Bucket}
    (hb : cf.buckets[i % cf.buckets.length]? = some b) :
    cf.insert fp i = match Bucket.insert b fp with
      | some b2 => some (true, ⟨cf.buckets.set (i % cf.buckets.length) b2, cf.size + 1, cf.pow⟩)
      | none => some (false, cf) := by
  unfold CuckooFilter.insert
  rw [hb]

theorem CuckooFilter.insert_isSome {cf : CuckooFilter} (hlen : 0 < cf.buckets.length)
    (fp i : Nat) : ∃ r, cf.insert fp i = some r := by
  have hidx : i % cf.buckets.length < cf.buckets.length := Nat.mod_lt _ hlen
  have hb := List.getElem?_eq_getElem hidx
  rw [CuckooFilter.insert_eq cf fp i hb]
  cases hins : Bucket.insert cf.buckets[i % cf.buckets.length] fp with
  | none => exact ⟨(false, cf), rfl⟩
  | some b2 => exact ⟨_, rfl⟩

theorem CuckooFilter.insert_true_spec {cf cf2 : CuckooFilter} {fp i : Nat}
    (hWF : cf.WF) (hfp : fp ≠ 0) (h : cf.insert fp i = some (true, cf2)) :
    cf2.WF ∧ cf2.pow = cf.pow ∧ cf2.size = cf.size + 1 ∧ cf2.stored = fp ::ₘ cf.stored ∧
      cf2.buckets.length = cf.buckets.length := by
  obtain ⟨hlen, hblen, hpow⟩ := hWF
  have hidx : i % cf.buckets.length < cf.buckets.length := Nat.mod_lt _ hlen
  have hb := List.getElem?_eq_getElem hidx
  rw [CuckooFilter.insert_eq cf fp i hb] at h
  cases hins : Bucket.insert cf.buckets[i % cf.buckets.length] fp with
  | none => rw [hins] at h; simp at h
  | some b2 =>
    rw [hins] at h
    rw [Option.some.injEq, Prod.mk.injEq] at h
    obtain ⟨-, h2⟩ := h
    subst h2
    refine ⟨⟨by simpa using hlen, ?_, by simpa using hpow⟩, rfl, rfl, ?_, by simp⟩
    · intro b' hb'
      rcases List.mem_or_eq_of_mem_set hb' with hmem | heq
      · exact hblen b' hmem
      · subst heq
        rw [(Bucket.insert_some hins).1]
        exact hblen _ (List.getElem_mem hidx)
    · exact storedList_set_insert hb hins hfp

theorem CuckooFilter.insert_false_spec {cf cf2 : CuckooFilter} {fp i : Nat}
    (h : cf.insert fp i = some (false, cf2)) :
    cf = cf2 ∧ ∀ b, cf.buckets[i % cf.buckets.length]? = some b → ∀ x ∈ b, x ≠ 0 := by
  cases hb : cf.buckets[i % cf.buckets.length]? with
  | none =>
    unfold CuckooFilter.insert at h
    rw [hb] at h
    simp at h
  | some b =>
    rw [CuckooFilter.insert_eq cf fp i hb] at h
    cases hins : Bucket.insert b fp with
    | none =>
      rw [hins] at h
      rw [Option.some.injEq, Prod.mk.injEq] at h
      refine ⟨h.2, ?_⟩
      intro b' hb'
      rw [Option.some.injEq] at hb'
      subst hb'
      exact Bucket.insert_eq_none.mp hins
    | some b2 => rw [hins] at h; simp at h

theorem CuckooFilter.remove_eq (cf : CuckooFilter) (fp i : Nat) {b : Bucket}
    (hb : cf.buckets[i]? = some b) :
    cf.remove fp i = match Bucket.delete b fp with
      | some b2 => some (true, ⟨cf.buckets.set i b2, cf.size - 1, cf.pow⟩)
      | none => some (false, cf) := by
  unfold CuckooFilter.remove
  rw [hb]

theorem CuckooFilter.remove_isSome {cf : CuckooFilter} {i : Nat}
    (hi : i < cf.buckets.length) (fp : Nat) : ∃ r, cf.remove fp i = some r := by
  have hb := List.getElem?_eq_getElem hi
  rw [CuckooFilter.remove_eq cf fp i hb]
  cases hdel : Bucket.delete cf.buckets[i] fp with
  | none => exact ⟨(false, cf), rfl⟩
  | some b2 => exact ⟨_, rfl⟩

theorem CuckooFilter.remove_true_spec {cf cf2 : CuckooFilter} {fp i : Nat}
    (hWF : cf.WF) (hfp : fp ≠ 0) (h : cf.remove fp i = some (true, cf2)) :
    cf2.WF ∧ cf2.pow = cf.pow ∧ cf2.size = cf.size - 1 ∧ cf.stored = fp ::ₘ cf2.stored ∧
      ∃ b j, cf.buckets[i]? = some b ∧ b[j]? = some fp ∧
        cf2 = ⟨cf.buckets.set i (b.set j 0), cf.size - 1, cf.pow⟩ := by
  obtain ⟨hlen, hblen, hpow⟩ := hWF
  cases hb : cf.buckets[i]? with
  | none =>
    unfold CuckooFilter.remove at h
    rw [hb] at h
    simp at h
  | some b =>
    rw [CuckooFilter.remove_eq cf fp i hb] at h
    cases hdel : Bucket.delete b fp with
    | none => rw [hdel] at h; simp at h
    | some b2 =>
      rw [hdel] at h
      rw [Option.some.injEq, Prod.mk.injEq] at h
      obtain ⟨-, h2⟩ := h
      subst h2
      obtain ⟨j, hj, rfl⟩ := Bucket.delete_some hdel
      have hmem : b ∈ cf.buckets := by
        have := List.getElem?_eq_some_iff.mp hb
        obtain ⟨hlt, hget⟩ := this
        exact hget ▸ List.getElem_mem hlt
      refine ⟨⟨by simpa using hlen, ?_, by simpa using hpow⟩, rfl, rfl, ?_, b, j, rfl, hj, rfl⟩
      · intro b' hb'
        rcases List.mem_or_eq_of_mem_set hb' with hmem' | heq
        · exact hblen b' hmem'
        · subst heq
          rw [List.length_set]
          exact hblen b hmem
      · exact storedList_set_delete hb hdel hfp

theorem CuckooFilter.remove_false_spec {cf cf2 : CuckooFilter} {fp i : Nat}
    (h : cf.remove fp i = some (false, cf2)) :
    cf = cf2 ∧ ∀ b, cf.buckets[i]? = some b → fp ∉ b := by
  cases hb : cf.buckets[i]? with
  | none =>
    unfold CuckooFilter.remove at h
    rw [hb] at h
    simp at h
  | some b =>
    rw [CuckooFilter.remove_eq cf fp i hb] at h
    cases hdel : Bucket.delete b fp with
    | none =>
      rw [hdel] at h
      rw [Option.some.injEq, Prod.mk.injEq] at h
      refine ⟨h.2, ?_⟩
      intro b' hb'
      rw [Option.some.injEq] at hb'
      subst hb'
      exact Bucket.delete_eq_none.mp hdel
    | some b2 => rw [hdel] at h; simp at h

/- Specification of the eviction loop: whatever the random choices, the loop
either answers Ok with exactly the in-hand fingerprint added (net effect on
the stored multiset), or answers NotEnoughSpace with the final in-hand
victim g discarded, so that g together with the final stored multiset
matches fp together with the initial one. -/

theorem reinsertLoop_spec (hashFp : Nat → Nat) (js : Nat → Fin BUCKET_SIZE) :
    ∀ (fuel k : Nat) (cf : CuckooFilter) (fp i : Nat), cf.WF → fp ≠ 0 → i < 2 ^ cf.pow →
    (∀ b, cf.buckets[i]? = some b → ∀ x ∈ b, x ≠ 0) →
    ((∃ cf2, CuckooFilter.reinsertLoop hashFp js fuel k cf fp i = some (.ok cf2) ∧
        cf2.WF ∧ cf2.pow = cf.pow ∧ cf2.size = cf.size + 1 ∧ cf2.stored = fp ::ₘ cf.stored)
    ∨ (∃ cf2 g, CuckooFilter.reinsertLoop hashFp js fuel k cf fp i
          = some (.notEnoughSpace cf2) ∧
        cf2.WF ∧ cf2.pow = cf.pow ∧ cf2.size = cf.size ∧ g ≠ 0 ∧
        g ::ₘ cf2.stored = fp ::ₘ cf.stored)) := by
  intro fuel
  induction fuel with
  | zero =>
    intro k cf fp i hWF hfp hi hfull
    right
    exact ⟨cf, fp, rfl, hWF, rfl, rfl, hfp, rfl⟩
  | succ fuel ih =>
    intro k cf fp i hWF hfp hi hfull
    obtain ⟨hlen, hblen, hpow⟩ := hWF
    have hilen : i < cf.buckets.length := lt_of_lt_of_le hi hpow
    have hb : cf.buckets[i]? = some cf.buckets[i] := List.getElem?_eq_getElem hilen
    have hblength : (cf.buckets[i]).length = BUCKET_SIZE := hblen _ (List.getElem_mem hilen)
    have hj : (js k).val < (cf.buckets[i]).length := by
      rw [hblength]; exact (js k).isLt
    have he : (cf.buckets[i])[(js k).val]? = some ((cf.buckets[i])[(js k).val]) :=
      List.getElem?_eq_getElem hj
    have hev : (cf.buckets[i])[(js k).val] ≠ 0 :=
      hfull _ hb _ (List.getElem_mem hj)
    have hstep : CuckooFilter.reinsertLoop hashFp js (fuel + 1) k cf fp i
        = match CuckooFilter.insert
            ⟨cf.buckets.set i ((cf.buckets[i]).set (js k).val fp), cf.size, cf.pow⟩
            ((cf.buckets[i])[(js k).val])
            (get_alt_index hashFp ((cf.buckets[i])[(js k).val]) i cf.pow) with
          | none => none
          | some (true, cf3) => some (.ok cf3)
          | some (false, cf3) =>
            CuckooFilter.reinsertLoop hashFp js fuel (k + 1) cf3
              ((cf.buckets[i])[(js k).val])
              (get_alt_index hashFp ((cf.buckets[i])[(js k).val]) i cf.pow) := by
      simp only [CuckooFilter.reinsertLoop, hb, he]
    have hWF2 : CuckooFilter.WF
        ⟨cf.buckets.set i ((cf.buckets[i]).set (js k).val fp), cf.size, cf.pow⟩ := by
      refine ⟨by simpa using hlen, ?_, by simpa using hpow⟩
      intro b' hb'
      rcases List.mem_or_eq_of_mem_set hb' with hmem | heq
      · exact hblen b' hmem
      · subst heq
        rw [List.length_set]
        exact hblength
    have hswap : ((cf.buckets[i])[(js k).val]) ::ₘ
        (CuckooFilter.stored
          ⟨cf.buckets.set i ((cf.buckets[i]).set (js k).val fp), cf.size, cf.pow⟩)
        = fp ::ₘ cf.stored :=
      storedList_set_swap hb he hev hfp
    have hlen2 : (cf.buckets.set i ((cf.buckets[i]).set (js k).val fp)).length
        = cf.buckets.length := List.length_set cf.buckets i _
    have hinew : get_alt_index hashFp ((cf.buckets[i])[(js k).val]) i cf.pow < 2 ^ cf.pow := by
      unfold get_alt_index
      exact Nat.mod_lt _ (Nat.pow_pos (by norm_num))
    obtain ⟨⟨br, cf3⟩, hins⟩ := @CuckooFilter.insert_isSome ⟨cf.buckets.set i
        ((cf.buckets[i]).set (js k).val fp), cf.size, cf.pow⟩
      (by simpa using hlen) ((cf.buckets[i])[(js k).val])
      (get_alt_index hashFp ((cf.buckets[i])[(js k).val]) i cf.pow)
    cases br with
    | true =>
      obtain ⟨hWF3, hpow3, hsize3, hstored3, hlen3⟩ :=
        CuckooFilter.insert_true_spec hWF2 hev hins
      left
      refine ⟨cf3, by rw [hstep, hins], hWF3, hpow3, hsize3, ?_⟩
      rw [hstored3]
      exact hswap
    | false =>
      obtain ⟨rfl, hfullnew⟩ := CuckooFilter.insert_false_spec hins
      have hmodeq : get_alt_index hashFp ((cf.buckets[i])[(js k).val]) i cf.pow
            % (cf.buckets.set i ((cf.buckets[i]).set (js k).val fp)).length
          = get_alt_index hashFp ((cf.buckets[i])[(js k).val]) i cf.pow := by
        rw [hlen2]
        exact Nat.mod_eq_of_lt (lt_of_lt_of_le hinew hpow)
      rw [hmodeq] at hfullnew
      have hrec := ih (k + 1)
        ⟨cf.buckets.set i ((cf.buckets[i]).set (js k).val fp), cf.size, cf.pow⟩
        ((cf.buckets[i])[(js k).val])
        (get_alt_index hashFp ((cf.buckets[i])[(js k).val]) i cf.pow)
        hWF2 hev hinew hfullnew
      have hloop : CuckooFilter.reinsertLoop hashFp js (fuel + 1) k cf fp i
          = CuckooFilter.reinsertLoop hashFp js fuel (k + 1)
            ⟨cf.buckets.set i ((cf.buckets[i]).set (js k).val fp), cf.size, cf.pow⟩
            ((cf.buckets[i])[(js k).val])
            (get_alt_index hashFp ((cf.buckets[i])[(js k).val]) i cf.pow) := by
        rw [hstep, hins]
      rcases hrec with ⟨cf4, heq4, hWF4, hpow4, hsize4, hst4⟩ |
        ⟨cf4, g, heq4, hWF4, hpow4, hsize4, hg, hst4⟩
      · left
        refine ⟨cf4, by rw [hloop]; exact heq4, hWF4, hpow4, hsize4, ?_⟩
        rw [hst4]
        exact hswap
      · right
        refine ⟨cf4, g, by rw [hloop]; exact heq4, hWF4, hpow4, hsize4, hg, ?_⟩
        rw [hst4]
        exact hswap

/- Fingerprint-record facts. -/

theorem fingerprint_byte_ne_zero (hashKey : List Nat → Nat) (key : List Nat) :
    fingerprint_byte hashKey key ≠ 0 := by
  unfold fingerprint_byte
  by_cases h : hashKey key % 256 = 0 <;> simp [h]

theorem finger_fp_ne_zero (hashKey : List Nat → Nat) (hashFp : Nat → Nat)
    (key : List Nat) (pow : Nat) :
    (get_indices_and_fingerprint hashKey hashFp key pow).fp ≠ 0 :=
  fingerprint_byte_ne_zero hashKey key

theorem finger_i1_lt (hashKey : List Nat → Nat) (hashFp : Nat → Nat)
    (key : List Nat) (pow : Nat) :
    (get_indices_and_fingerprint hashKey hashFp key pow).i1 < 2 ^ pow :=
  Nat.mod_lt _ (Nat.pow_pos (by norm_num))

theorem finger_i2_lt (hashKey : List Nat → Nat) (hashFp : Nat → Nat)
    (key : List Nat) (pow : Nat) :
    (get_indices_and_fingerprint hashKey hashFp key pow).i2 < 2 ^ pow :=
  Nat.mod_lt _ (Nat.pow_pos (by norm_num))

/- Specification of the full insertion algorithm. -/

theorem CuckooFilter.addFinger_spec {cf : CuckooFilter} (hashFp : Nat → Nat) (coin : Bool)
    (js : Nat → Fin BUCKET_SIZE) (finger : FingerRecord) (hWF : cf.WF)
    (hfp : finger.fp ≠ 0) (hi1 : finger.i1 < 2 ^ cf.pow) (hi2 : finger.i2 < 2 ^ cf.pow) :
    (∃ cf2, cf.addFinger hashFp coin js finger = some (.ok cf2) ∧ cf2.WF ∧
       cf2.pow = cf.pow ∧ cf2.size = cf.size + 1 ∧ cf2.stored = finger.fp ::ₘ cf.stored)
  ∨ (∃ cf2 g, cf.addFinger hashFp coin js finger = some (.notEnoughSpace cf2) ∧ cf2.WF ∧
       cf2.pow = cf.pow ∧ cf2.size = cf.size ∧ g ≠ 0 ∧
       g ::ₘ cf2.stored = finger.fp ::ₘ cf.stored) := by
  have hlen := hWF.1
  have hpowlen := hWF.2.2
  obtain ⟨⟨br1, cfA⟩, hins1⟩ := CuckooFilter.insert_isSome hlen finger.fp finger.i1
  cases br1 with
  | true =>
    obtain ⟨hWFA, hpowA, hsizeA, hstoredA, -⟩ := CuckooFilter.insert_true_spec hWF hfp hins1
    left
    exact ⟨cfA, by simp only [CuckooFilter.addFinger, hins1], hWFA, hpowA, hsizeA, hstoredA⟩
  | false =>
    obtain ⟨rfl, hfull1⟩ := CuckooFilter.insert_false_spec hins1
    obtain ⟨⟨br2, cfB⟩, hins2⟩ := CuckooFilter.insert_isSome hlen finger.fp finger.i2
    cases br2 with
    | true =>
      obtain ⟨hWFB, hpowB, hsizeB, hstoredB, -⟩ := CuckooFilter.insert_true_spec hWF hfp hins2
      left
      exact ⟨cfB, by simp only [CuckooFilter.addFinger, hins1, hins2], hWFB, hpowB, hsizeB,
        hstoredB⟩
    | false =>
      obtain ⟨rfl, hfull2⟩ := CuckooFilter.insert_false_spec hins2
      rw [Nat.mod_eq_of_lt (lt_of_lt_of_le hi1 hpowlen)] at hfull1
      rw [Nat.mod_eq_of_lt (lt_of_lt_of_le hi2 hpowlen)] at hfull2
      have hrand : rand_index coin finger.i1 finger.i2 < 2 ^ cf.pow := by
        cases coin
        · simpa [rand_index] using hi2
        · simpa [rand_index] using hi1
      have hfullrand : ∀ b, cf.buckets[rand_index coin finger.i1 finger.i2]? = some b →
          ∀ x ∈ b, x ≠ 0 := by
        cases coin
        · simpa [rand_index] using hfull2
        · simpa [rand_index] using hfull1
      have heq : cf.addFinger hashFp coin js finger
          = CuckooFilter.reinsertLoop hashFp js MAX_CUCKOO_COUNT 0 cf finger.fp
            (rand_index coin finger.i1 finger.i2) := by
        simp only [CuckooFilter.addFinger, hins1, hins2, CuckooFilter.reinsert]
      rcases reinsertLoop_spec hashFp js MAX_CUCKOO_COUNT 0 cf finger.fp
          (rand_index coin finger.i1 finger.i2) hWF hfp hrand hfullrand with
        ⟨cf2, heq2, hWF2, hpow2, hsize2, hst2⟩ | ⟨cf2, g, heq2, hWF2, hpow2, hsize2, hg, hst2⟩
      · left
        exact ⟨cf2, by rw [heq]; exact heq2, hWF2, hpow2, hsize2, hst2⟩
      · right
        exact ⟨cf2, g, by rw [heq]; exact heq2, hWF2, hpow2, hsize2, hg, hst2⟩

theorem CuckooFilter.add_spec (hashKey : List Nat → Nat) (hashFp : Nat → Nat) (coin : Bool)
    (js : Nat → Fin BUCKET_SIZE) (cf : CuckooFilter) (item : List Nat) (hWF : cf.WF) :
    (∃ cf2, CuckooFilter.add hashKey hashFp coin js cf item = some (.ok cf2) ∧ cf2.WF ∧
       cf2.pow = cf.pow ∧ cf2.size = cf.size + 1 ∧
       cf2.stored = (get_indices_and_fingerprint hashKey hashFp item cf.pow).fp ::ₘ cf.stored)
  ∨ (∃ cf2 g, CuckooFilter.add hashKey hashFp coin js cf item = some (.notEnoughSpace cf2) ∧
       cf2.WF ∧ cf2.pow = cf.pow ∧ cf2.size = cf.size ∧ g ≠ 0 ∧
       g ::ₘ cf2.stored
         = (get_indices_and_fingerprint hashKey hashFp item cf.pow).fp ::ₘ cf.stored) :=
  CuckooFilter.addFinger_spec hashFp coin js
    (get_indices_and_fingerprint hashKey hashFp item cf.pow) hWF
    (finger_fp_ne_zero hashKey hashFp item cf.pow)
    (finger_i1_lt hashKey hashFp item cf.pow)
    (finger_i2_lt hashKey hashFp item cf.pow)

/- Specification of deletion. -/

theorem CuckooFilter.deleteFinger_spec {cf : CuckooFilter} (finger : FingerRecord)
    (hWF : cf.WF) (hfp : finger.fp ≠ 0) (hi1 : finger.i1 < 2 ^ cf.pow)
    (hi2 : finger.i2 < 2 ^ cf.pow) :
    (∃ cf2, cf.deleteFinger finger = some (true, cf2) ∧ cf2.WF ∧ cf2.pow = cf.pow ∧
       cf2.size = cf.size - 1 ∧ cf.stored = finger.fp ::ₘ cf2.stored)
  ∨ cf.deleteFinger finger = some (false, cf) := by
  have hi1len : finger.i1 < cf.buckets.length := lt_of_lt_of_le hi1 hWF.2.2
  have hi2len : finger.i2 < cf.buckets.length := lt_of_lt_of_le hi2 hWF.2.2
  obtain ⟨⟨br1, cfA⟩, hrem1⟩ := CuckooFilter.remove_isSome hi1len finger.fp
  cases br1 with
  | true =>
    obtain ⟨hWFA, hpowA, hsizeA, hstoredA, -⟩ := CuckooFilter.remove_true_spec hWF hfp hrem1
    left
    exact ⟨cfA, by simp only [CuckooFilter.deleteFinger, hrem1], hWFA, hpowA, hsizeA, hstoredA⟩
  | false =>
    obtain ⟨rfl, -⟩ := CuckooFilter.remove_false_spec hrem1
    obtain ⟨⟨br2, cfB⟩, hrem2⟩ := CuckooFilter.remove_isSome hi2len finger.fp
    cases br2 with
    | true =>
      obtain ⟨hWFB, hpowB, hsizeB, hstoredB, -⟩ := CuckooFilter.remove_true_spec hWF hfp hrem2
      left
      exact ⟨cfB, by simp only [CuckooFilter.deleteFinger, hrem1]; exact hrem2, hWFB, hpowB,
        hsizeB, hstoredB⟩
    | false =>
      obtain ⟨rfl, -⟩ := CuckooFilter.remove_false_spec hrem2
      right
      simp only [CuckooFilter.deleteFinger, hrem1]
      exact hrem2

/- Correctness of the De Bruijn trailing-zero count, needed to relate `pow`
to the bucket-array length for filters built by `with_capacity`. -/

theorem debruijn_tab_spec :
    ∀ k, k < 64 → DE_BRUIJN64_TAB.getD (2 ^ k * DE_BRUIJN64 % 2 ^ 64 / 2 ^ 58) 0 = k := by
  decide

theorem land_two_pow_mul (k a b : Nat) : (2 ^ k * a) &&& (2 ^ k * b) = 2 ^ k * (a &&& b) := by
  apply Nat.eq_of_testBit_eq
  intro i
  rw [Nat.mul_comm (2 ^ k) a, Nat.mul_comm (2 ^ k) b, Nat.mul_comm (2 ^ k) (a &&& b),
    ← Nat.shiftLeft_eq, ← Nat.shiftLeft_eq, ← Nat.shiftLeft_eq, Nat.testBit_land,
    Nat.testBit_shiftLeft, Nat.testBit_shiftLeft, Nat.testBit_shiftLeft, Nat.testBit_land]
  cases hik : decide (i ≥ k) <;> simp

theorem odd_land_two_pow_sub {m s : Nat} (hm : m % 2 = 1) (hlt : m < 2 ^ s) :
    m &&& (2 ^ s - m) = 1 := by
  have hm1 : 1 ≤ m := by omega
  have hs : 0 < s := by
    rcases Nat.eq_zero_or_pos s with rfl | h
    · simp at hlt; omega
    · exact h
  have hsub : 2 ^ s - m = 2 ^ s - ((m - 1) + 1) := by omega
  apply Nat.eq_of_testBit_eq
  intro i
  rw [Nat.testBit_land, hsub, Nat.testBit_two_pow_sub_succ (by omega : m - 1 < 2 ^ s)]
  cases i with
  | zero =>
    have hm0 : (m - 1) % 2 = 0 := by omega
    simp [Nat.testBit_zero, hm, hm0, hs]
  | succ i =>
    have hmb : (m - 1).testBit (i + 1) = m.testBit (i + 1) := by
      rw [Nat.testBit_succ, Nat.testBit_succ]
      congr 1
      omega
    rw [hmb]
    have h1 : Nat.testBit 1 (i + 1) = false := by
      rw [Nat.testBit_succ]
      simp
    rw [h1]
    cases hbit : m.testBit (i + 1) <;> simp

theorem trailing_zeros_two_pow_mul {k m : Nat} (hm : m % 2 = 1)
    (hlt : 2 ^ k * m < 2 ^ 64) : trailing_zeros (2 ^ k * m) = k := by
  have hm1 : 1 ≤ m := by omega
  have hkm : 2 ^ k ≤ 2 ^ k * m := Nat.le_mul_of_pos_right _ (by omega)
  have hkpos : 0 < 2 ^ k := Nat.pow_pos (by norm_num)
  have hk64 : k < 64 := by
    by_contra hk
    push_neg at hk
    have h2 : (2 : Nat) ^ 64 ≤ 2 ^ k := Nat.pow_le_pow_right (by norm_num) hk
    omega
  have hmlt : m < 2 ^ (64 - k) := by
    have h1 : 2 ^ k * m < 2 ^ k * 2 ^ (64 - k) := by
      rw [← Nat.pow_add, Nat.add_sub_cancel' (le_of_lt hk64)]
      exact hlt
    exact Nat.lt_of_mul_lt_mul_left h1
  have hsplit : 2 ^ 64 - 2 ^ k * m = 2 ^ k * (2 ^ (64 - k) - m) := by
    rw [Nat.mul_sub, ← Nat.pow_add, Nat.add_sub_cancel' (le_of_lt hk64)]
  have hland : (2 ^ k * m) &&& (2 ^ 64 - 2 ^ k * m) = 2 ^ k := by
    rw [hsplit, land_two_pow_mul, odd_land_two_pow_sub hm hmlt, Nat.mul_one]
  have hne : ¬ 2 ^ k * m = 0 := by omega
  have hmod : (2 ^ 64 - 2 ^ k * m) % 2 ^ 64 = 2 ^ 64 - 2 ^ k * m :=
    Nat.mod_eq_of_lt (by omega)
  unfold trailing_zeros
  rw [if_neg hne, hmod, hland]
  exact debruijn_tab_spec k hk64

theorem two_pow_trailing_zeros_le {n : Nat} (h0 : 0 < n) (h64 : n < 2 ^ 64) :
    2 ^ trailing_zeros n ≤ n := by
  obtain ⟨k, m, hodd, rfl⟩ := Nat.exists_eq_two_pow_mul_odd (by omega : n ≠ 0)
  have hm := Nat.odd_iff.mp hodd
  rw [trailing_zeros_two_pow_mul hm h64]
  exact Nat.le_mul_of_pos_right _ (by omega)

theorem with_capacity_WF {n : Nat} (h0 : 0 < n) (h64 : n < 2 ^ 64) :
    (CuckooFilter.with_capacity n).WF := by
  refine ⟨by simpa [CuckooFilter.with_capacity] using h0, ?_,
    by simpa [CuckooFilter.with_capacity] using two_pow_trailing_zeros_le h0 h64⟩
  intro b hb
  rw [CuckooFilter.with_capacity] at hb
  simp only [List.mem_replicate] at hb
  rw [hb.2, List.length_replicate]

/- Bounds for the spec-modelled `upper_power2` and for `gen_size`. -/

theorem upper_power2_go_pos : ∀ fuel n acc, 0 < acc → 0 < upper_power2_go fuel n acc := by
  intro fuel
  induction fuel with
  | zero => intro n acc h; exact h
  | succ fuel ih =>
    intro n acc h
    unfold upper_power2_go
    by_cases hna : n ≤ acc
    · rw [if_pos hna]; exact h
    · rw [if_neg hna]; exact ih n (acc * 2) (by omega)

theorem upper_power2_pos (n : Nat) : 0 < upper_power2 n :=
  upper_power2_go_pos n n 1 (by omega)

theorem upper_power2_go_lt : ∀ fuel n acc, 0 < n → acc < 2 * n →
    upper_power2_go fuel n acc < 2 * n := by
  intro fuel
  induction fuel with
  | zero => intro n acc h hacc; exact hacc
  | succ fuel ih =>
    intro n acc h hacc
    unfold upper_power2_go
    by_cases hna : n ≤ acc
    · rw [if_pos hna]; exact hacc
    · rw [if_neg hna]
      exact ih n (acc * 2) h (by omega)

theorem upper_power2_lt {n : Nat} (h : 0 < n) : upper_power2 n < 2 * n :=
  upper_power2_go_lt n n 1 h (by omega)

theorem gen_size_param_pos (frac_gt : Bool) (k : Nat) : 0 < gen_size_param frac_gt k := by
  have h := upper_power2_pos (max 1 (k / BUCKET_SIZE))
  unfold gen_size_param
  cases frac_gt <;> simp <;> omega

theorem gen_size_param_lt {k : Nat} (hk : k < 2 ^ 64) (frac_gt : Bool) :
    gen_size_param frac_gt k < 2 ^ 64 := by
  have h64 : (2 : Nat) ^ 64 = 18446744073709551616 := by norm_num
  have hm : max 1 (k / BUCKET_SIZE) ≤ 4611686018427387904 := by
    have : k / BUCKET_SIZE ≤ 4611686018427387903 := by
      unfold BUCKET_SIZE
      omega
    omega
  have h2 : upper_power2 (max 1 (k / BUCKET_SIZE)) < 2 * 4611686018427387904 :=
    lt_of_lt_of_le (upper_power2_lt (by omega)) (by omega)
  unfold gen_size_param
  cases frac_gt <;> simp <;> omega

theorem new_WF (frac_gt : Bool) {k : Nat} (hk : k < 2 ^ 64) :
    (CuckooFilter.new frac_gt k).WF :=
  with_capacity_WF (gen_size_param_pos frac_gt k) (gen_size_param_lt hk frac_gt)

/- Totality (no panic) of the public operations on well-formed filters. -/

theorem CuckooFilter.contains_isSome {cf : CuckooFilter} (hWF : cf.WF)
    (hashKey : List Nat → Nat) (hashFp : Nat → Nat) (data : List Nat) :
    CuckooFilter.contains hashKey hashFp cf data ≠ none := by
  have hi1len : (get_indices_and_fingerprint hashKey hashFp data cf.pow).i1
      < cf.buckets.length :=
    lt_of_lt_of_le (finger_i1_lt hashKey hashFp data cf.pow) hWF.2.2
  have hb := List.getElem?_eq_getElem hi1len
  simp only [CuckooFilter.contains, CuckooFilter.containsFinger, hb]
  simp

theorem CuckooFilter.add_isSome {cf : CuckooFilter} (hWF : cf.WF)
    (hashKey : List Nat → Nat) (hashFp : Nat → Nat) (coin : Bool)
    (js : Nat → Fin BUCKET_SIZE) (item : List Nat) :
    CuckooFilter.add hashKey hashFp coin js cf item ≠ none := by
  rcases CuckooFilter.add_spec hashKey hashFp coin js cf item hWF with
    ⟨cf2, heq, -⟩ | ⟨cf2, g, heq, -⟩ <;> simp [heq]

theorem CuckooFilter.delete_spec (hashKey : List Nat → Nat) (hashFp : Nat → Nat)
    (cf : CuckooFilter) (data : List Nat) (hWF : cf.WF) :
    (∃ cf2, CuckooFilter.delete hashKey hashFp cf data = some (true, cf2) ∧ cf2.WF ∧
       cf2.pow = cf.pow ∧ cf2.size = cf.size - 1 ∧
       cf.stored = (get_indices_and_fingerprint hashKey hashFp data cf.pow).fp ::ₘ cf2.stored)
  ∨ CuckooFilter.delete hashKey hashFp cf data = some (false, cf) :=
  CuckooFilter.deleteFinger_spec (get_indices_and_fingerprint hashKey hashFp data cf.pow) hWF
    (finger_fp_ne_zero hashKey hashFp data cf.pow)
    (finger_i1_lt hashKey hashFp data cf.pow)
    (finger_i2_lt hashKey hashFp data cf.pow)

theorem CuckooFilter.delete_isSome {cf : CuckooFilter} (hWF : cf.WF)
    (hashKey : List Nat → Nat) (hashFp : Nat → Nat) (data : List Nat) :
    CuckooFilter.delete hashKey hashFp cf data ≠ none := by
  rcases CuckooFilter.delete_spec hashKey hashFp cf data hWF with
    ⟨cf2, heq, -⟩ | heq <;> simp [heq]

/- Claim theorems. -/

/-- C1: the membership contract "contains is true iff fp is present in bucket
i1 OR bucket i2" fails on the code: at the state below the key hashes to
fingerprint 6 with i1 = 0 and i2 = 1, fingerprint 6 is stored in bucket
i2 = 1 (its slot index is found), yet `contains` answers false, because the
source binds both b1 and b2 to `self.buckets[finger.i1]`, reading bucket i1
twice. -/
theorem C1_contains_misses_alternate_bucket :
    CuckooFilter.contains (fun _ => 6) (fun _ => 1)
        ⟨[[0, 0, 0, 0], [6, 0, 0, 0]], 1, 1⟩ [] = some false
      ∧ (get_indices_and_fingerprint (fun _ => 6) (fun _ => 1) [] 1).i2 = 1
      ∧ (Bucket.get_fingerprint_index [6, 0, 0, 0] 6).isSome = true :=
  ⟨rfl, rfl, rfl⟩

/-- C2: "after a successful add(k), contains(k) is true" fails on the code:
here bucket i1 = 0 is full, so add places fingerprint 6 in bucket i2 = 1 and
returns Ok, but the immediately following contains answers false because it
reads bucket i1 twice instead of i1 and i2. -/
theorem C2_add_ok_then_contains_false :
    CuckooFilter.add (fun _ => 6) (fun n => n + 1) true
        (fun _ => (⟨0, by decide⟩ : Fin BUCKET_SIZE))
        ⟨[[1, 2, 3, 4], [0, 0, 0, 0]], 4, 1⟩ []
      = some (.ok ⟨[[1, 2, 3, 4], [6, 0, 0, 0]], 5, 1⟩)
      ∧ CuckooFilter.contains (fun _ => 6) (fun n => n + 1)
        ⟨[[1, 2, 3, 4], [6, 0, 0, 0]], 5, 1⟩ [] = some false :=
  ⟨rfl, rfl⟩

/-- C3 counterexample: a NotEnoughSpace run of add on a full two-bucket
filter does not preserve the stored multiset: fingerprint 1 is lost and the
new key's fingerprint 9 is stored in its place (the occupied-slot count is
unchanged, but "no fingerprint is lost or duplicated relative to before the
call" is refuted). -/
theorem C3_counterexample_multiset_changes :
    CuckooFilter.add (fun _ => 265) (fun n => n) true
        (fun _ => (⟨0, by decide⟩ : Fin BUCKET_SIZE))
        ⟨[[1, 2, 3, 4], [5, 6, 7, 8]], 8, 1⟩ []
      = some (.notEnoughSpace ⟨[[5, 2, 3, 4], [9, 6, 7, 8]], 8, 1⟩)
      ∧ CuckooFilter.stored ⟨[[5, 2, 3, 4], [9, 6, 7, 8]], 8, 1⟩
        ≠ CuckooFilter.stored ⟨[[1, 2, 3, 4], [5, 6, 7, 8]], 8, 1⟩ :=
  ⟨rfl, by decide⟩

/-- C3 (amended): when add returns Err(NotEnoughSpace) the item is not
counted and the filter is left consistent: it stays well-formed, `size` and
the total number of occupied (non-zero) slots are unchanged, and `pow` is
unchanged — but the stored multiset is in general reshuffled AND exchanged
(one stored fingerprint may have been replaced by the new item's), not
literally preserved. -/
theorem C3_notEnoughSpace_preserves_occupancy
    (hashKey : List Nat → Nat) (hashFp : Nat → Nat) (coin : Bool)
    (js : Nat → Fin BUCKET_SIZE) (cf cf2 : CuckooFilter) (item : List Nat)
    (hWF : cf.WF)
    (h : CuckooFilter.add hashKey hashFp coin js cf item = some (.notEnoughSpace cf2)) :
    cf2.WF ∧ cf2.pow = cf.pow ∧ cf2.size = cf.size ∧ cf2.occupied = cf.occupied := by
  rcases CuckooFilter.add_spec hashKey hashFp coin js cf item hWF with
    ⟨cf3, heq, -⟩ | ⟨cf3, g, heq, hWF3, hpow3, hsize3, hg, hst3⟩
  · rw [h] at heq; simp at heq
  · have hcf : cf3 = cf2 := by rw [h] at heq; simpa using heq.symm
    subst hcf
    refine ⟨hWF3, hpow3, hsize3, ?_⟩
    have hcard := congrArg Multiset.card hst3
    simp only [Multiset.card_cons] at hcard
    unfold CuckooFilter.occupied
    omega

/-- C3 witness: the amended statement evaluated on the concrete
NotEnoughSpace run used in the counterexample. -/
theorem C3_witness :
    CuckooFilter.WF ⟨[[1, 2, 3, 4], [5, 6, 7, 8]], 8, 1⟩
      ∧ CuckooFilter.occupied ⟨[[5, 2, 3, 4], [9, 6, 7, 8]], 8, 1⟩
        = CuckooFilter.occupied ⟨[[1, 2, 3, 4], [5, 6, 7, 8]], 8, 1⟩ :=
  ⟨by decide,
   (C3_notEnoughSpace_preserves_occupancy (fun _ => 265) (fun n => n) true
     (fun _ => (⟨0, by decide⟩ : Fin BUCKET_SIZE))
     ⟨[[1, 2, 3, 4], [5, 6, 7, 8]], 8, 1⟩
     ⟨[[5, 2, 3, 4], [9, 6, 7, 8]], 8, 1⟩ [] (by decide) (by decide)).2.2.2⟩

/-- C4 counterexample: a NotEnoughSpace run in which the final filter state
is identical to the initial one: the item's fingerprint 10 is NOT present in
any bucket after the call (it was swapped in and swapped back out), and no
previously stored fingerprint was lost — refuting both "the fingerprint of
item has nevertheless been written into one of the filter's buckets" and
"exactly one fingerprint that was stored before the call is no longer stored
after it". -/
theorem C4_counterexample_filter_unchanged :
    CuckooFilter.add (fun _ => 10) (fun _ => 0) true
        (fun _ => (⟨0, by decide⟩ : Fin BUCKET_SIZE))
        ⟨[[1, 2, 3, 4], [5, 6, 7, 8]], 8, 1⟩ []
      = some (.notEnoughSpace ⟨[[1, 2, 3, 4], [5, 6, 7, 8]], 8, 1⟩)
      ∧ (get_indices_and_fingerprint (fun _ => 10) (fun _ => 0) [] 1).fp = 10
      ∧ ¬ (10 : Nat) ∈ CuckooFilter.stored ⟨[[1, 2, 3, 4], [5, 6, 7, 8]], 8, 1⟩ :=
  ⟨rfl, rfl, by decide⟩

/-- C4 (amended): when add returns Err(NotEnoughSpace) there is a non-zero
victim fingerprint g — the one in hand when the retry budget ran out — with
`g ::ₘ stored_after = fp ::ₘ stored_before`; when g ≠ fp this means the
item's fingerprint is stored and exactly one previously stored fingerprint
was discarded, but in degenerate eviction cycles g = fp and the filter is
unchanged. -/
theorem C4_notEnoughSpace_exchange
    (hashKey : List Nat → Nat) (hashFp : Nat → Nat) (coin : Bool)
    (js : Nat → Fin BUCKET_SIZE) (cf cf2 : CuckooFilter) (item : List Nat)
    (hWF : cf.WF)
    (h : CuckooFilter.add hashKey hashFp coin js cf item = some (.notEnoughSpace cf2)) :
    ∃ g, g ≠ 0 ∧ g ::ₘ cf2.stored
      = (get_indices_and_fingerprint hashKey hashFp item cf.pow).fp ::ₘ cf.stored := by
  rcases CuckooFilter.add_spec hashKey hashFp coin js cf item hWF with
    ⟨cf3, heq, -⟩ | ⟨cf3, g, heq, hWF3, hpow3, hsize3, hg, hst3⟩
  · rw [h] at heq; simp at heq
  · have hcf : cf3 = cf2 := by rw [h] at heq; simpa using heq.symm
    subst hcf
    exact ⟨g, hg, hst3⟩

/-- C4 witness: the amended statement evaluated on the concrete
NotEnoughSpace run of the C4 counterexample (there the victim is the item's
own fingerprint). -/
theorem C4_witness :
    CuckooFilter.WF ⟨[[1, 2, 3, 4], [5, 6, 7, 8]], 8, 1⟩
      ∧ ∃ g, g ≠ 0 ∧ g ::ₘ CuckooFilter.stored ⟨[[1, 2, 3, 4], [5, 6, 7, 8]], 8, 1⟩
        = (get_indices_and_fingerprint (fun _ => 10) (fun _ => 0) [] 1).fp
          ::ₘ CuckooFilter.stored ⟨[[1, 2, 3, 4], [5, 6, 7, 8]], 8, 1⟩ :=
  ⟨by decide,
   C4_notEnoughSpace_exchange (fun _ => 10) (fun _ => 0) true
     (fun _ => (⟨0, by decide⟩ : Fin BUCKET_SIZE))
     ⟨[[1, 2, 3, 4], [5, 6, 7, 8]], 8, 1⟩
     ⟨[[1, 2, 3, 4], [5, 6, 7, 8]], 8, 1⟩ [] (by decide) (by decide)⟩

/-- C5: from any well-formed filter state satisfying the invariant
"size equals the number of non-zero slots across all buckets" (the
fingerprint function produces non-zero bytes by construction), the public
operations preserve it: a successful add increments size and the occupied
count by exactly one, a failed (NotEnoughSpace) add leaves size unchanged, a
successful delete decrements size by exactly one, and a failed delete leaves
the filter unchanged. `contains` takes the filter immutably and returns no
state, so it cannot disturb the invariant. -/
theorem C5_size_invariant (hashKey : List Nat → Nat) (hashFp : Nat → Nat) (coin : Bool)
    (js : Nat → Fin BUCKET_SIZE) (cf : CuckooFilter) (item : List Nat)
    (hWF : cf.WF) (hinv : cf.size = cf.occupied) :
    (∀ cf2, CuckooFilter.add hashKey hashFp coin js cf item = some (.ok cf2) →
       cf2.size = cf2.occupied ∧ cf2.size = cf.size + 1)
  ∧ (∀ cf2, CuckooFilter.add hashKey hashFp coin js cf item = some (.notEnoughSpace cf2) →
       cf2.size = cf2.occupied ∧ cf2.size = cf.size)
  ∧ (∀ cf2, CuckooFilter.delete hashKey hashFp cf item = some (true, cf2) →
       cf2.size = cf2.occupied ∧ cf2.size + 1 = cf.size)
  ∧ (∀ cf2, CuckooFilter.delete hashKey hashFp cf item = some (false, cf2) → cf2 = cf) := by
  refine ⟨?_, ?_, ?_, ?_⟩
  · intro cf2 h
    rcases CuckooFilter.add_spec hashKey hashFp coin js cf item hWF with
      ⟨cf3, heq, -, -, hsize3, hst3⟩ | ⟨cf3, g, heq, -⟩
    · rw [h] at heq
      have hc : cf3 = cf2 := by simpa using heq.symm
      subst hc
      have hcard := congrArg Multiset.card hst3
      simp only [Multiset.card_cons] at hcard
      unfold CuckooFilter.occupied at hinv ⊢
      constructor <;> omega
    · rw [h] at heq; simp at heq
  · intro cf2 h
    rcases CuckooFilter.add_spec hashKey hashFp coin js cf item hWF with
      ⟨cf3, heq, -⟩ | ⟨cf3, g, heq, -, -, hsize3, hg, hst3⟩
    · rw [h] at heq; simp at heq
    · rw [h] at heq
      have hc : cf3 = cf2 := by simpa using heq.symm
      subst hc
      have hcard := congrArg Multiset.card hst3
      simp only [Multiset.card_cons] at hcard
      unfold CuckooFilter.occupied at hinv ⊢
      constructor <;> omega
  · intro cf2 h
    rcases CuckooFilter.delete_spec hashKey hashFp cf item hWF with
      ⟨cf4, heqd, -, -, hsize4, hst4⟩ | heqd
    · rw [h] at heqd
      have hc : cf4 = cf2 := by simpa using heqd.symm
      subst hc
      have hcard := congrArg Multiset.card hst4
      simp only [Multiset.card_cons] at hcard
      unfold CuckooFilter.occupied at hinv ⊢
      constructor <;> omega
    · rw [h] at heqd; simp at heqd
  · intro cf2 h
    rcases CuckooFilter.delete_spec hashKey hashFp cf item hWF with
      ⟨cf4, heqd, -⟩ | heqd
    · rw [h] at heqd; simp at heqd
    · rw [h] at heqd
      have : cf = cf2 := by simpa using heqd.symm
      exact this.symm

/-- C5 witness: the invariant statement evaluated on a concrete one-item
filter; the key hashes to fingerprint 6 with candidate buckets 0 and 1. -/
theorem C5_witness :
    (CuckooFilter.WF ⟨[[5, 0, 0, 0], [0, 0, 0, 0]], 1, 1⟩
      ∧ (⟨[[5, 0, 0, 0], [0, 0, 0, 0]], 1, 1⟩ : CuckooFilter).size
        = (⟨[[5, 0, 0, 0], [0, 0, 0, 0]], 1, 1⟩ : CuckooFilter).occupied)
  ∧ (∀ cf2, CuckooFilter.add (fun _ => 6) (fun _ => 1) true
        (fun _ => (⟨0, by decide⟩ : Fin BUCKET_SIZE))
        ⟨[[5, 0, 0, 0], [0, 0, 0, 0]], 1, 1⟩ [] = some (.ok cf2) →
      cf2.size = cf2.occupied ∧ cf2.size = 2) :=
  ⟨⟨by decide, by decide⟩,
   (C5_size_invariant (fun _ => 6) (fun _ => 1) true
     (fun _ => (⟨0, by decide⟩ : Fin BUCKET_SIZE))
     ⟨[[5, 0, 0, 0], [0, 0, 0, 0]], 1, 1⟩ [] (by decide) (by decide)).1⟩

/-- C6 counterexample: `with_capacity(0)` builds a filter with zero buckets,
and on it both add and contains hit the panicking paths of the source
(`i % 0` and out-of-range indexing), modelled as `none` — so "no public
operation panics for any input, a requested capacity of zero is floored to
at least one bucket" fails for the with_capacity constructor (only
new/gen_size floor the capacity). -/
theorem C6_counterexample_capacity_zero_panics :
    CuckooFilter.add (fun _ => 6) (fun n => n) true
        (fun _ => (⟨0, by decide⟩ : Fin BUCKET_SIZE)) (CuckooFilter.with_capacity 0) [] = none
      ∧ CuckooFilter.contains (fun _ => 6) (fun n => n) (CuckooFilter.with_capacity 0) [] = none :=
  ⟨rfl, rfl⟩

/-- C6 (amended): `gen_size` (hence `new`, for any value of the
floating-point branch) floors the capacity to at least one bucket and
produces a well-formed filter; `with_capacity n` is well-formed for every
usize `n ≥ 1`; and on every well-formed filter — in particular every filter
built by new, default, or with_capacity with a positive capacity — add,
contains and delete never panic, for every key including the empty one. Only
operations on a filter built by `with_capacity 0` can panic. -/
theorem C6_no_panic_when_wellformed :
    (∀ frac_gt k, 1 ≤ gen_size_param frac_gt k)
  ∧ (∀ frac_gt k, k < 2 ^ 64 → (CuckooFilter.new frac_gt k).WF)
  ∧ (∀ n, 0 < n → n < 2 ^ 64 → (CuckooFilter.with_capacity n).WF)
  ∧ (∀ cf, cf.WF → ∀ hashKey hashFp coin js item,
      CuckooFilter.add hashKey hashFp coin js cf item ≠ none
      ∧ CuckooFilter.contains hashKey hashFp cf item ≠ none
      ∧ CuckooFilter.delete hashKey hashFp cf item ≠ none) := by
  refine ⟨gen_size_param_pos, fun b k hk => new_WF b hk,
    fun n h0 h64 => with_capacity_WF h0 h64, ?_⟩
  intro cf hWF hashKey hashFp coin js item
  exact ⟨CuckooFilter.add_isSome hWF hashKey hashFp coin js item,
    CuckooFilter.contains_isSome hWF hashKey hashFp item,
    CuckooFilter.delete_isSome hWF hashKey hashFp item⟩

/-- C6 witness: flooring and totality evaluated on concrete inputs: a
requested max_num_keys of 0 still yields at least one bucket, and on the
two-bucket filter from with_capacity 2 an add of the empty key does not
panic. -/
theorem C6_witness :
    1 ≤ gen_size_param false 0
      ∧ (CuckooFilter.with_capacity 2).WF
      ∧ CuckooFilter.add (fun _ => 6) (fun n => n) true
          (fun _ => (⟨0, by decide⟩ : Fin BUCKET_SIZE)) (CuckooFilter.with_capacity 2) []
        ≠ none :=
  ⟨C6_no_panic_when_wellformed.1 false 0,
   C6_no_panic_when_wellformed.2.2.1 2 (by decide) (by decide),
   (C6_no_panic_when_wellformed.2.2.2 (CuckooFilter.with_capacity 2) (by decide)
     (fun _ => 6) (fun n => n) true (fun _ => (⟨0, by decide⟩ : Fin BUCKET_SIZE)) []).1⟩

/-- C7 counterexample: `with_capacity 3` allocates exactly 3 buckets — the
bucket count is NOT rounded to a power of two — and `pow` is
trailing_zeros 3 = 0, so the array length is not 2 ^ pow. -/
theorem C7_counterexample_no_rounding :
    (CuckooFilter.with_capacity 3).buckets.length = 3
      ∧ 2 ^ (CuckooFilter.with_capacity 3).pow = 1 :=
  ⟨by decide, by decide⟩

/-- C7 (amended): `with_capacity n` allocates exactly `n` buckets (no
rounding), all slots zero-initialized, with size 0 and
pow = trailing_zeros n; the relation "array length = 2 ^ pow" holds exactly
when n is a power of two, which is the only kind of capacity the library
itself passes via gen_size. -/
theorem C7_with_capacity_exact (n : Nat) (h64 : n < 2 ^ 64) :
    (CuckooFilter.with_capacity n).buckets.length = n
  ∧ (CuckooFilter.with_capacity n).buckets
      = List.replicate n (List.replicate BUCKET_SIZE 0)
  ∧ (CuckooFilter.with_capacity n).size = 0
  ∧ (CuckooFilter.with_capacity n).pow = trailing_zeros n
  ∧ (∀ j, n = 2 ^ j → 2 ^ (CuckooFilter.with_capacity n).pow = n) := by
  refine ⟨by simp [CuckooFilter.with_capacity], rfl, rfl, rfl, ?_⟩
  intro j hj
  subst hj
  show 2 ^ trailing_zeros (2 ^ j) = 2 ^ j
  have h := @trailing_zeros_two_pow_mul j 1 (by norm_num)
    (by simpa using h64)
  rw [Nat.mul_one] at h
  rw [h]

/-- C7 witness: the amended statement evaluated at n = 4 = 2 ^ 2. -/
theorem C7_witness :
    (4 : Nat) < 2 ^ 64
      ∧ (CuckooFilter.with_capacity 4).buckets.length = 4
      ∧ 2 ^ (CuckooFilter.with_capacity 4).pow = 4 :=
  ⟨by decide, (C7_with_capacity_exact 4 (by decide)).1,
   (C7_with_capacity_exact 4 (by decide)).2.2.2.2 2 (by decide)⟩

/-- C8: the alternate-index map used by the eviction loop
(`i2 = (i XOR hash(fp)) mod 2 ^ pow`, spec-modelled from §4.1) is a
self-inverse involution on the index range: applying it again from
`(i2, fp)` recovers `i` for every in-range `i`, so each fingerprint's two
candidate buckets are derivable from either one plus the fingerprint alone. -/
theorem C8_alt_index_involution (hashFp : Nat → Nat) (fp i pow : Nat)
    (hi : i < 2 ^ pow) :
    get_alt_index hashFp fp (get_alt_index hashFp fp i pow) pow = i := by
  unfold get_alt_index
  apply Nat.eq_of_testBit_eq
  intro t
  rw [Nat.testBit_mod_two_pow, Nat.testBit_xor, Nat.testBit_mod_two_pow, Nat.testBit_xor]
  by_cases ht : t < pow
  · simp only [ht, decide_True, Bool.true_and]
    cases hx : i.testBit t <;> cases hy : (hashFp fp).testBit t <;> simp
  · have hbit : i.testBit t = false := by
      apply Nat.testBit_lt_two_pow
      calc i < 2 ^ pow := hi
        _ ≤ 2 ^ t := Nat.pow_le_pow_right (by norm_num) (by omega)
    simp [ht, hbit]

/-- C8 witness: the involution evaluated at pow = 4, i = 3, fp = 7 with the
identity fingerprint hash. -/
theorem C8_witness :
    (3 : Nat) < 2 ^ 4
      ∧ get_alt_index (fun n => n) 7 (get_alt_index (fun n => n) 7 3 4) 4 = 3 :=
  ⟨by decide, C8_alt_index_involution (fun n => n) 7 3 4 (by decide)⟩

/-- C10: if the key's fingerprint occurs in neither candidate bucket, delete
returns false and leaves the filter completely unchanged; and whenever
delete succeeds it has cleared exactly one slot that held the key's
fingerprint (candidate bucket i1 or i2), never a slot holding a different
value. -/
theorem C10_delete_absent_noop (hashKey : List Nat → Nat) (hashFp : Nat → Nat)
    (cf : CuckooFilter) (data : List Nat) (hWF : cf.WF) :
    ((∀ b, cf.buckets[(get_indices_and_fingerprint hashKey hashFp data cf.pow).i1]?
          = some b → (get_indices_and_fingerprint hashKey hashFp data cf.pow).fp ∉ b) →
     (∀ b, cf.buckets[(get_indices_and_fingerprint hashKey hashFp data cf.pow).i2]?
          = some b → (get_indices_and_fingerprint hashKey hashFp data cf.pow).fp ∉ b) →
     CuckooFilter.delete hashKey hashFp cf data = some (false, cf))
  ∧ (∀ cf2, CuckooFilter.delete hashKey hashFp cf data = some (true, cf2) →
     ∃ i b j, (i = (get_indices_and_fingerprint hashKey hashFp data cf.pow).i1
         ∨ i = (get_indices_and_fingerprint hashKey hashFp data cf.pow).i2)
       ∧ cf.buckets[i]? = some b
       ∧ b[j]? = some (get_indices_and_fingerprint hashKey hashFp data cf.pow).fp
       ∧ cf2 = ⟨cf.buckets.set i (b.set j 0), cf.size - 1, cf.pow⟩) := by
  have hfp := finger_fp_ne_zero hashKey hashFp data cf.pow
  have hi1len : (get_indices_and_fingerprint hashKey hashFp data cf.pow).i1
      < cf.buckets.length := lt_of_lt_of_le (finger_i1_lt hashKey hashFp data cf.pow) hWF.2.2
  have hi2len : (get_indices_and_fingerprint hashKey hashFp data cf.pow).i2
      < cf.buckets.length := lt_of_lt_of_le (finger_i2_lt hashKey hashFp data cf.pow) hWF.2.2
  have hb1 := List.getElem?_eq_getElem hi1len
  have hb2 := List.getElem?_eq_getElem hi2len
  constructor
  · intro habs1 habs2
    have hdel1 : Bucket.delete
        cf.buckets[(get_indices_and_fingerprint hashKey hashFp data cf.pow).i1]
        (get_indices_and_fingerprint hashKey hashFp data cf.pow).fp = none :=
      Bucket.delete_eq_none.mpr (habs1 _ hb1)
    have hdel2 : Bucket.delete
        cf.buckets[(get_indices_and_fingerprint hashKey hashFp data cf.pow).i2]
        (get_indices_and_fingerprint hashKey hashFp data cf.pow).fp = none :=
      Bucket.delete_eq_none.mpr (habs2 _ hb2)
    have hrem1 : cf.remove (get_indices_and_fingerprint hashKey hashFp data cf.pow).fp
        (get_indices_and_fingerprint hashKey hashFp data cf.pow).i1 = some (false, cf) := by
      rw [CuckooFilter.remove_eq cf _ _ hb1, hdel1]
    have hrem2 : cf.remove (get_indices_and_fingerprint hashKey hashFp data cf.pow).fp
        (get_indices_and_fingerprint hashKey hashFp data cf.pow).i2 = some (false, cf) := by
      rw [CuckooFilter.remove_eq cf _ _ hb2, hdel2]
    simp only [CuckooFilter.delete, CuckooFilter.deleteFinger, hrem1]
    exact hrem2
  · intro cf2 h
    obtain ⟨⟨br1, cfA⟩, hrem1⟩ :=
      CuckooFilter.remove_isSome hi1len (get_indices_and_fingerprint hashKey hashFp data cf.pow).fp
    cases br1 with
    | true =>
      obtain ⟨-, -, -, -, b, j, hbA, hjA, rfl⟩ := CuckooFilter.remove_true_spec hWF hfp hrem1
      simp only [CuckooFilter.delete, CuckooFilter.deleteFinger, hrem1,
        Option.some.injEq, Prod.mk.injEq] at h
      exact ⟨_, b, j, Or.inl rfl, hbA, hjA, h.2.symm⟩
    | false =>
      obtain ⟨heqA, -⟩ := CuckooFilter.remove_false_spec hrem1
      obtain ⟨⟨br2, cfB⟩, hrem2⟩ :=
        CuckooFilter.remove_isSome hi2len (get_indices_and_fingerprint hashKey hashFp data cf.pow).fp
      cases br2 with
      | true =>
        obtain ⟨-, -, -, -, b, j, hbB, hjB, rfl⟩ := CuckooFilter.remove_true_spec hWF hfp hrem2
        rw [← heqA] at hrem1
        simp only [CuckooFilter.delete, CuckooFilter.deleteFinger, hrem1, hrem2,
          Option.some.injEq, Prod.mk.injEq] at h
        exact ⟨_, b, j, Or.inr rfl, hbB, hjB, h.2.symm⟩
      | false =>
        obtain ⟨heqB, -⟩ := CuckooFilter.remove_false_spec hrem2
        rw [← heqA] at hrem1
        rw [← heqB] at hrem2
        simp only [CuckooFilter.delete, CuckooFilter.deleteFinger, hrem1, hrem2,
          Option.some.injEq, Prod.mk.injEq] at h
        exact absurd h.1 (by simp)

/-- C10 witness: deleting a key whose fingerprint 6 is in neither bucket of
a concrete filter returns false and leaves the filter unchanged. -/
theorem C10_witness :
    CuckooFilter.WF ⟨[[1, 2, 3, 4], [0, 0, 0, 0]], 4, 1⟩
      ∧ CuckooFilter.delete (fun _ => 6) (fun _ => 1)
          ⟨[[1, 2, 3, 4], [0, 0, 0, 0]], 4, 1⟩ []
        = some (false, ⟨[[1, 2, 3, 4], [0, 0, 0, 0]], 4, 1⟩) :=
  ⟨by decide,
   (C10_delete_absent_noop (fun _ => 6) (fun _ => 1)
       ⟨[[1, 2, 3, 4], [0, 0, 0, 0]], 4, 1⟩ [] (by decide)).1
     (by intro b hb
         have hb2 : some ([1, 2, 3, 4] : Bucket) = some b := hb
         rw [Option.some.injEq] at hb2
         rw [← hb2]
         decide)
     (by intro b hb
         have hb2 : some ([0, 0, 0, 0] : Bucket) = some b := hb
         rw [Option.some.injEq] at hb2
         rw [← hb2]
         decide)⟩

end Cuckoo
